import Mathlib

/-!
Verification of the Al-Meezan lead-capture application (`src/app.py`).

The embedding models the request handlers of the Flask application as pure
functions over an explicit application state:

* `Lead` mirrors the single `leads` table row
  (`id, name, phone, message, status, created_at`).
* `AppState` carries the lead store (with the autoincrement counter) and the
  in-memory rate-limit map `REQUEST_LOG` (client address → timestamp).
* `contact` embeds the `POST /contact` handler: rate-limit check, field
  stripping, validation, insertion.
* `admin`, `mark_contacted`, `delete_lead`, `download_leads`, `admin_logout`
  embed the session-gated admin routes; the session is the boolean
  `admin_logged_in` flag.
* `writeCsv`/`exportCsv` embed the CSV serialization performed with Python's
  `csv.writer` (minimal quoting, `"` doubled inside quoted fields, `\r\n`
  record terminator); `parseCsv` is an independent RFC-4180-style reader used
  to state the round-trip property.
* `send_db_backup_email` and `admin_backup` embed the backup pipeline; the
  outcome of the outbound HTTPS call is a parameter (`SendAttempt`) since the
  network is external to the program.

Timestamps (`time.time()`) are modelled as integers (only subtraction and
order comparison of timestamps occur); template rendering and
the HTTP framework glue are outside the model, as in the specification.
-/

namespace AlMeezan

/-- One row of the `leads` table. `status` defaults to `"new"` and
`created_at` is assigned at insertion; both are plain strings here. -/
structure Lead where
  id : Nat
  name : String
  phone : String
  message : String
  status : String
  created_at : String
  deriving Repr, DecidableEq

/-- The rate-limit map `REQUEST_LOG : client address → timestamp`, modelled as
an association list without duplicate keys being relevant (lookups take the
first hit, updates replace in place, as a Python dict does). -/
def RequestLog := List (String × ℤ)

instance : DecidableEq RequestLog := by
  unfold RequestLog
  infer_instance

/-- Lookup `log[ip]`, `none` when `ip not in log`. -/
def logLookup (log : RequestLog) (ip : String) : Option ℤ :=
  match log with
  | [] => none
  | (k, v) :: rest => if k = ip then some v else logLookup rest ip

/-- The dict assignment `log[ip] = t`. -/
def logUpdate (log : RequestLog) (ip : String) (t : ℤ) : RequestLog :=
  match log with
  | [] => [(ip, t)]
  | (k, v) :: rest =>
      if k = ip then (ip, t) :: rest else (k, v) :: logUpdate rest ip t

/-- Whole mutable state of the process: the lead store (with the
autoincrement counter of the `id` column) and `REQUEST_LOG`. -/
structure AppState where
  leads : List Lead
  nextId : Nat
  requestLog : RequestLog
  deriving DecidableEq

/-- JSON body of a contact submission. `data.get("name", "")` turns a missing
field into `""`, so each field is simply a string. -/
structure ContactBody where
  name : String
  phone : String
  message : String
  deriving Repr, DecidableEq

/-- Python's `str.strip()` on the leading side: drop leading whitespace. -/
def stripLeft (l : List Char) : List Char :=
  l.dropWhile Char.isWhitespace

/-- Python's `str.strip()` on the trailing side: drop trailing whitespace. -/
def stripRight (l : List Char) : List Char :=
  (stripLeft l.reverse).reverse

/-- Python's `str.strip()`: drop leading and trailing whitespace. -/
def pyStrip (s : String) : String :=
  ⟨stripRight (stripLeft s.data)⟩

/-- HTTP-level result of the `/contact` handler: the JSON `status` string and
the response code. -/
def ContactResult := String × Nat

instance : DecidableEq ContactResult := by
  unfold ContactResult
  infer_instance

/-- The part of the `/contact` handler after the rate-limit gate: record the
request time in `REQUEST_LOG`, strip the three fields, validate
(non-emptiness and the 100/20/1000 length bounds), and insert on success.
`createdAt` stands for the store-assigned `CURRENT_TIMESTAMP`. -/
def contactAfterRate (st : AppState) (ip : String) (now : ℤ)
    (body : ContactBody) (createdAt : String) : ContactResult × AppState :=
  let st1 : AppState := { st with requestLog := logUpdate st.requestLog ip now }
  let name := pyStrip body.name
  let phone := pyStrip body.phone
  let message := pyStrip body.message
  if name = "" ∨ phone = "" ∨ message = "" ∨
      name.length > 100 ∨ phone.length > 20 ∨ message.length > 1000 then
    (("error", 400), st1)
  else
    (("success", 200),
      { st1 with
        leads := st1.leads ++
          [⟨st1.nextId, name, phone, message, "new", createdAt⟩],
        nextId := st1.nextId + 1 })

/-- The `POST /contact` handler. A stored timestamp strictly less than five
seconds old short-circuits with 429 before anything else happens. -/
def contact (st : AppState) (ip : String) (now : ℤ)
    (body : ContactBody) (createdAt : String) : ContactResult × AppState :=
  match logLookup st.requestLog ip with
  | some t =>
      if now - t < 5 then (("too_many_requests", 429), st)
      else contactAfterRate st ip now body createdAt
  | none => contactAfterRate st ip now body createdAt

/-- Response of an admin-facing route: a redirect, a rendered page, a plain
text body, or a CSV attachment. -/
inductive Response where
  | redirect (location : String)
  | page (template : String)
  | text (body : String)
  | csvAttachment (content : String)
  deriving Repr, DecidableEq

/-- The `ORDER BY created_at DESC` of the admin queries. SQLite compares
`TEXT` byte-wise; on the UTF-8 encodings this is the lexicographic order on
strings, taken here in reverse. -/
def sortByCreatedDesc (leads : List Lead) : List Lead :=
  leads.mergeSort (fun a b => decide (b.created_at ≤ a.created_at))

/-- The `GET /admin` dashboard: session gate, then a rendered page over the
lead store (the rendering itself is outside the model). -/
def admin (loggedIn : Bool) (st : AppState) : Response × AppState :=
  if !loggedIn then (.redirect "/admin/login", st)
  else (.page "admin", st)

/-- The `GET /admin/mark/<lead_id>` route:
`UPDATE leads SET status='contacted' WHERE id=?`, then redirect. -/
def mark_contacted (loggedIn : Bool) (st : AppState) (leadId : Nat) :
    Response × AppState :=
  if !loggedIn then (.redirect "/admin/login", st)
  else
    (.redirect "/admin",
      { st with
        leads := st.leads.map fun l =>
          if l.id = leadId then { l with status := "contacted" } else l })

/-- The `GET /admin/delete/<lead_id>` route:
`DELETE FROM leads WHERE id=?`, then redirect. -/
def delete_lead (loggedIn : Bool) (st : AppState) (leadId : Nat) :
    Response × AppState :=
  if !loggedIn then (.redirect "/admin/login", st)
  else
    (.redirect "/admin",
      { st with leads := st.leads.filter fun l => l.id ≠ leadId })

/-- The `GET /admin/logout` route: `session.clear()` (the returned boolean is
the session flag afterwards) and an unconditional redirect to the login
page. -/
def admin_logout (_loggedIn : Bool) (st : AppState) :
    (Response × Bool) × AppState :=
  ((.redirect "/admin/login", false), st)

/-! ## CSV serialization (`csv.writer` with the default dialect) -/

/-- A field must be quoted when it contains the delimiter, the quote
character, or a line break (minimal quoting, the `csv.writer` default). -/
def needsQuoting (s : List Char) : Bool :=
  s.any fun c => c = ',' || c = '"' || c = '\r' || c = '\n'

/-- Double every `"` (the escaping used inside a quoted field). -/
def escapeQuotes : List Char → List Char
  | [] => []
  | c :: rest =>
      if c = '"' then '"' :: '"' :: escapeQuotes rest
      else c :: escapeQuotes rest

/-- Serialize one field: quote and escape exactly when needed. -/
def writeField (s : List Char) : List Char :=
  if needsQuoting s then '"' :: (escapeQuotes s ++ ['"']) else s

/-- Serialize one record: comma-separated fields, `\r\n` terminator (the
`csv.writer` default line terminator). -/
def writeRow : List (List Char) → List Char
  | [] => ['\r', '\n']
  | [f] => writeField f ++ ['\r', '\n']
  | f :: fs => writeField f ++ ',' :: writeRow fs

/-- Serialize a sequence of records. -/
def writeCsv (rows : List (List (List Char))) : List Char :=
  (rows.map writeRow).flatten

/-- The header row written by both CSV consumers. -/
def csvHeader : List String :=
  ["ID", "Name", "Phone", "Message", "Status", "Created At"]

/-- The six serialized fields of one lead, in the order written by the
export loops. -/
def leadFields (l : Lead) : List String :=
  [toString l.id, l.name, l.phone, l.message, l.status, l.created_at]

/-- The CSV text built for a given sequence of leads: header row then one
row per lead in the order given. -/
def exportCsv (leads : List Lead) : String :=
  ⟨writeCsv ((csvHeader :: leads.map leadFields).map (List.map String.data))⟩

/-! ## CSV parsing (standard RFC-4180-style rules, the spec side of the
round-trip) -/

/-- Character-level CSV reader. `inQ` says whether the cursor is inside a
quoted field, `cur` is the field accumulated so far, `fs` the fields of the
current record, `rows` the finished records. Standard rules: `""` inside
quotes is a literal quote, a quote opens a field only at its start, `,`
separates fields, `\r\n` (or a bare `\n`) ends a record. -/
def parseCsvGo (inQ : Bool) (cur : List Char) (fs : List (List Char))
    (rows : List (List (List Char))) : List Char → List (List (List Char))
  | [] => if cur.isEmpty && fs.isEmpty then rows else rows ++ [fs ++ [cur]]
  | c :: rest =>
    if inQ then
      if c = '"' then
        if rest.head? = some '"' then
          parseCsvGo true (cur ++ ['"']) fs rows rest.tail
        else parseCsvGo false cur fs rows rest
      else parseCsvGo true (cur ++ [c]) fs rows rest
    else
      if c = ',' then parseCsvGo false [] (fs ++ [cur]) rows rest
      else if c = '"' then
        if cur.isEmpty then parseCsvGo true cur fs rows rest
        else parseCsvGo false (cur ++ [c]) fs rows rest
      else if c = '\r' then
        if rest.head? = some '\n' then
          parseCsvGo false [] [] (rows ++ [fs ++ [cur]]) rest.tail
        else parseCsvGo false (cur ++ [c]) fs rows rest
      else if c = '\n' then parseCsvGo false [] [] (rows ++ [fs ++ [cur]]) rest
      else parseCsvGo false (cur ++ [c]) fs rows rest
termination_by l => l.length
decreasing_by all_goals simp [List.length_tail] <;> omega

/-- Parse a CSV document into its records of fields. -/
def parseCsv (s : String) : List (List String) :=
  (parseCsvGo false [] [] [] s.data).map (List.map String.mk)

/-! ## The CSV consumers -/

/-- The `GET /admin/download` route: session gate, then either the plain-text
no-data message or the CSV attachment over the store snapshot. -/
def download_leads (loggedIn : Bool) (st : AppState) : Response × AppState :=
  if !loggedIn then (.redirect "/admin/login", st)
  else
    let rows := sortByCreatedDesc st.leads
    if rows.isEmpty then (.text "No data available", st)
    else (.csvAttachment (exportCsv rows), st)

/-! ## Backup pipeline -/

/-- Outcome of the outbound `requests.post` to the email provider: either an
HTTP response with some status code, or a raised transport error (timeout,
connection failure). The network is external, so this is a parameter of the
model. -/
inductive SendAttempt where
  | providerStatus (code : Nat)
  | transportError (msg : String)
  deriving Repr, DecidableEq

/-- Observable effects of one run of the backup dispatcher: whether the
outbound send was issued, and the diagnostic lines printed. -/
structure DispatchResult where
  emailSent : Bool
  log : List String
  deriving Repr, DecidableEq

/-- Body of `send_db_backup_email` without its `try`/`except` wrapper: an
empty store short-circuits before any send; otherwise the CSV is built and
the send attempted, a transport error escaping as an exception
(`Except.error`). -/
def sendBackupBody (leads : List Lead) (attempt : SendAttempt) :
    Except String DispatchResult :=
  let rows := sortByCreatedDesc leads
  if rows.isEmpty then
    .ok { emailSent := false, log := ["No leads found. Backup skipped."] }
  else
    match attempt with
    | .providerStatus code =>
        .ok { emailSent := true,
              log := ("SendGrid Status: " ++ toString code) ::
                (if code ≠ 202 then ["SendGrid Error"] else []) }
    | .transportError msg => .error msg

/-- The dispatcher `send_db_backup_email`: the whole body runs under
`try`/`except`, so every exception is converted into a logged line and the
function always returns normally. -/
def send_db_backup_email (leads : List Lead) (attempt : SendAttempt) :
    DispatchResult :=
  match sendBackupBody leads attempt with
  | .ok r => r
  | .error e => { emailSent := false, log := ["Backup Error: " ++ e] }

/-- Response of the `GET /admin/backup` route, together with whether the
background dispatch thread was started. -/
structure BackupRouteResult where
  body : String
  code : Nat
  dispatchStarted : Bool
  deriving Repr, DecidableEq

/-- The `GET /admin/backup` route: key gate, then fire-and-forget dispatch.
The response is computed before the dispatch runs and does not mention its
outcome. -/
def admin_backup (key backupKey : String) : BackupRouteResult :=
  if key ≠ backupKey then
    { body := "Unauthorized", code := 403, dispatchStarted := false }
  else
    { body := "Backup triggered", code := 200, dispatchStarted := true }

/-- The route together with the detached dispatch it may have started:
`none` when the dispatcher was never invoked. -/
def admin_backup_with_dispatch (key backupKey : String) (leads : List Lead)
    (attempt : SendAttempt) : BackupRouteResult × Option DispatchResult :=
  let r := admin_backup key backupKey
  (r, if r.dispatchStarted then some (send_db_backup_email leads attempt)
      else none)

/-! ## Helper lemmas about stripping -/

/-- Defining equation of `stripLeft`, convenient for rewriting. -/
theorem stripLeft_eq (l : List Char) :
    stripLeft l = l.dropWhile Char.isWhitespace := rfl

/-- Leading whitespace goes, the rest is untouched. -/
theorem stripLeft_cons (c : Char) (t : List Char) :
    stripLeft (c :: t) =
      if c.isWhitespace then stripLeft t else c :: t := by
  simp [stripLeft_eq, List.dropWhile_cons]

/-- Result shape of `stripLeft`: empty, or starting with non-whitespace. -/
theorem stripLeft_shape (l : List Char) :
    stripLeft l = [] ∨
      ∃ c t, stripLeft l = c :: t ∧ c.isWhitespace = false := by
  induction l with
  | nil => exact Or.inl rfl
  | cons c t ih =>
    by_cases hc : c.isWhitespace = true
    · rw [stripLeft_cons, if_pos hc]
      exact ih
    · refine Or.inr ⟨c, t, ?_, ?_⟩
      · rw [stripLeft_cons, if_neg hc]
      · simpa using hc

/-- A list whose head is not whitespace is left fixed. -/
theorem stripLeft_of_head (l : List Char)
    (h : ∀ c t, l = c :: t → c.isWhitespace = false) : stripLeft l = l := by
  cases l with
  | nil => rfl
  | cons c t =>
    rw [stripLeft_cons, if_neg]
    simp [h c t rfl]

/-- The head of a stripped list is never whitespace. -/
theorem head_false_of_stripLeft (l : List Char) (c : Char) (t : List Char)
    (h : stripLeft l = c :: t) : c.isWhitespace = false := by
  rcases stripLeft_shape l with h0 | ⟨c', t', h0, hc'⟩
  · rw [h0] at h; cases h
  · rw [h0] at h
    cases h
    exact hc'

/-- Stripping the left twice strips it once. -/
theorem stripLeft_idem (l : List Char) :
    stripLeft (stripLeft l) = stripLeft l := by
  rcases stripLeft_shape l with h | ⟨c, t, h, hc⟩
  · rw [h]; rfl
  · rw [h, stripLeft_cons, if_neg]
    simp [hc]

/-- `stripLeft` returns a suffix of its input. -/
theorem stripLeft_eq_append (l : List Char) :
    ∃ u, l = u ++ stripLeft l := by
  induction l with
  | nil => exact ⟨[], rfl⟩
  | cons c t ih =>
    by_cases hc : c.isWhitespace = true
    · obtain ⟨u, hu⟩ := ih
      refine ⟨c :: u, ?_⟩
      rw [stripLeft_cons, if_pos hc, List.cons_append, ← hu]
    · refine ⟨[], ?_⟩
      rw [stripLeft_cons, if_neg hc, List.nil_append]

/-- `stripRight` returns a prefix of its input. -/
theorem stripRight_eq_append (l : List Char) :
    ∃ u, l = stripRight l ++ u := by
  obtain ⟨u, hu⟩ := stripLeft_eq_append l.reverse
  refine ⟨u.reverse, ?_⟩
  conv_lhs => rw [← List.reverse_reverse l, hu]
  rw [List.reverse_append]
  rfl

/-- After a left strip, a right strip leaves nothing for a further left
strip: the double strip is a fixed point of `stripLeft`. -/
theorem stripLeft_stripRight_stripLeft (l : List Char) :
    stripLeft (stripRight (stripLeft l)) = stripRight (stripLeft l) := by
  apply stripLeft_of_head
  intro c t hct
  obtain ⟨u, hu⟩ := stripRight_eq_append (stripLeft l)
  rw [hct, List.cons_append] at hu
  exact head_false_of_stripLeft l c (t ++ u) hu

/-- Stripping the right twice strips it once. -/
theorem stripRight_idem (l : List Char) :
    stripRight (stripRight l) = stripRight l := by
  show (stripLeft ((stripLeft l.reverse).reverse).reverse).reverse = _
  rw [List.reverse_reverse, stripLeft_idem]
  rfl

/-- Stripping both sides twice strips them once. -/
theorem stripRight_stripLeft_idem (l : List Char) :
    stripRight (stripLeft (stripRight (stripLeft l))) =
      stripRight (stripLeft l) := by
  rw [stripLeft_stripRight_stripLeft, stripRight_idem]

/-- Stripping is idempotent. -/
theorem pyStrip_idem (s : String) : pyStrip (pyStrip s) = pyStrip s := by
  apply String.ext
  exact stripRight_stripLeft_idem s.data

/-- A string whose characters are all whitespace strips to the empty
string. -/
theorem pyStrip_eq_empty_of_all_whitespace (s : String)
    (h : ∀ c ∈ s.data, c.isWhitespace) : pyStrip s = "" := by
  apply String.ext
  show stripRight (stripLeft s.data) = _
  rw [show stripLeft s.data = [] from
    List.dropWhile_eq_nil_iff.mpr fun c hc => h c hc]
  rfl

/-- No leading and no trailing whitespace. -/
def noEdgeWhitespace (s : String) : Prop :=
  (∀ c, s.data.head? = some c → c.isWhitespace = false) ∧
  (∀ c, s.data.getLast? = some c → c.isWhitespace = false)

/-- A stripped string has no whitespace at either edge. -/
theorem noEdgeWhitespace_pyStrip (s : String) :
    noEdgeWhitespace (pyStrip s) := by
  constructor
  · intro c hc
    have hfix := stripLeft_stripRight_stripLeft s.data
    rcases hd : stripRight (stripLeft s.data) with _ | ⟨c', t⟩
    · have : (pyStrip s).data = [] := hd
      rw [this] at hc
      cases hc
    · have : (pyStrip s).data = c' :: t := hd
      rw [this] at hc
      have hcc : c' = c := by simpa using hc
      subst hcc
      rw [hd] at hfix
      exact head_false_of_stripLeft (c' :: t) c' t hfix
  · intro c hc
    have : (pyStrip s).data = (stripLeft (stripLeft s.data).reverse).reverse := rfl
    rw [this, List.getLast?_reverse] at hc
    rcases stripLeft_shape (stripLeft s.data).reverse with h0 | ⟨c', t, h0, hc'⟩
    · rw [h0] at hc
      cases hc
    · rw [h0] at hc
      have : c' = c := by simpa using hc
      subst this
      exact hc'

/-! ## Helper lemmas for the CSV round-trip -/

/-- Defining equation of `escapeQuotes` on a cons. -/
theorem escapeQuotes_cons (c : Char) (s : List Char) :
    escapeQuotes (c :: s) =
      if c = '"' then '"' :: '"' :: escapeQuotes s
      else c :: escapeQuotes s := rfl

/-- Reading the escaped body of a quoted field accumulates exactly the
original field and consumes the closing quote. -/
theorem parseCsvGo_escape (s : List Char) :
    ∀ (cur : List Char) (fs : List (List Char))
      (rows : List (List (List Char))) (rest : List Char),
      rest.head? ≠ some '"' →
      parseCsvGo true cur fs rows (escapeQuotes s ++ '"' :: rest) =
        parseCsvGo false (cur ++ s) fs rows rest := by
  induction s with
  | nil =>
    intro cur fs rows rest h
    show parseCsvGo true cur fs rows ('"' :: rest) = _
    rw [parseCsvGo]
    simp [h]
  | cons c s ih =>
    intro cur fs rows rest h
    rw [escapeQuotes_cons]
    by_cases hc : c = '"'
    · subst hc
      rw [if_pos rfl, List.cons_append, List.cons_append, parseCsvGo]
      simp only [List.head?_cons, List.tail_cons, if_pos rfl, if_true]
      rw [ih (cur ++ ['"']) fs rows rest h]
      simp
    · rw [if_neg hc, List.cons_append, parseCsvGo]
      simp only [if_pos rfl, if_neg hc]
      rw [ih (cur ++ [c]) fs rows rest h]
      simp

/-- Reading an unquoted field (no delimiter, quote, or line break in it)
accumulates exactly the field. -/
theorem parseCsvGo_raw (s : List Char) :
    ∀ (cur : List Char) (fs : List (List Char))
      (rows : List (List (List Char))) (rest : List Char),
      needsQuoting s = false →
      parseCsvGo false cur fs rows (s ++ rest) =
        parseCsvGo false (cur ++ s) fs rows rest := by
  induction s with
  | nil => intro cur fs rows rest _; simp
  | cons c s ih =>
    intro cur fs rows rest h
    simp only [needsQuoting, List.any_cons, Bool.or_eq_false_iff,
      decide_eq_false_iff_not] at h
    obtain ⟨⟨⟨⟨h1, h2⟩, h3⟩, h4⟩, h5⟩ := h
    rw [List.cons_append, parseCsvGo]
    simp only [Bool.false_eq_true, if_false, if_neg h1, if_neg h2, if_neg h3,
      if_neg h4]
    rw [ih (cur ++ [c]) fs rows rest h5]
    simp

/-- Reading a serialized field from the start of a field position
accumulates exactly the original field, quoted or not. -/
theorem parseCsvGo_writeField (f : List Char) (fs : List (List Char))
    (rows : List (List (List Char))) (rest : List Char)
    (h : rest.head? ≠ some '"') :
    parseCsvGo false [] fs rows (writeField f ++ rest) =
      parseCsvGo false f fs rows rest := by
  by_cases hq : needsQuoting f = true
  · rw [writeField, if_pos hq]
    rw [show ('"' :: (escapeQuotes f ++ ['"'])) ++ rest =
        '"' :: (escapeQuotes f ++ '"' :: rest) by simp]
    rw [parseCsvGo]
    simp only [Bool.false_eq_true, if_false, if_pos rfl, List.isEmpty_nil,
      if_true, if_neg (by decide : ¬('"' = ','))]
    have := parseCsvGo_escape f [] fs rows rest h
    simpa using this
  · rw [writeField, if_neg hq]
    have := parseCsvGo_raw f [] fs rows rest (by simpa using hq)
    simpa using this

/-- Reading a serialized record flushes exactly one record: the fields
accumulated so far followed by the record's fields. -/
theorem parseCsvGo_writeRow (fields : List (List Char)) :
    ∀ (acc : List (List Char)) (rows : List (List (List Char)))
      (rest : List Char), fields ≠ [] →
      parseCsvGo false [] acc rows (writeRow fields ++ rest) =
        parseCsvGo false [] [] (rows ++ [acc ++ fields]) rest := by
  induction fields with
  | nil => intro _ _ _ h; exact absurd rfl h
  | cons f tl ih =>
    intro acc rows rest _
    cases tl with
    | nil =>
      rw [show writeRow [f] = writeField f ++ ['\r', '\n'] from rfl]
      rw [show (writeField f ++ ['\r', '\n']) ++ rest =
          writeField f ++ ('\r' :: '\n' :: rest) by simp]
      rw [parseCsvGo_writeField f acc rows ('\r' :: '\n' :: rest) (by simp)]
      rw [parseCsvGo]
      simp
    | cons f' tl' =>
      rw [show writeRow (f :: f' :: tl') =
          writeField f ++ ',' :: writeRow (f' :: tl') from rfl]
      rw [show (writeField f ++ ',' :: writeRow (f' :: tl')) ++ rest =
          writeField f ++ (',' :: (writeRow (f' :: tl') ++ rest)) by simp]
      rw [parseCsvGo_writeField f acc rows _ (by simp)]
      rw [parseCsvGo]
      simp only [Bool.false_eq_true, if_false, if_pos rfl]
      rw [ih (acc ++ [f]) rows rest (by simp)]
      simp

/-- Reading a serialized document yields exactly the original records, for
records that all have at least one field. -/
theorem parseCsvGo_writeCsv (rowsIn : List (List (List Char))) :
    ∀ (rowsAcc : List (List (List Char))), (∀ r ∈ rowsIn, r ≠ []) →
      parseCsvGo false [] [] rowsAcc (writeCsv rowsIn) = rowsAcc ++ rowsIn := by
  induction rowsIn with
  | nil =>
    intro rowsAcc _
    rw [show writeCsv [] = [] from rfl, parseCsvGo]
    simp
  | cons r tl ih =>
    intro rowsAcc h
    rw [show writeCsv (r :: tl) = writeRow r ++ writeCsv tl by
      simp [writeCsv]]
    rw [parseCsvGo_writeRow r [] rowsAcc (writeCsv tl) (h r (by simp))]
    rw [ih (rowsAcc ++ [[] ++ r]) (fun x hx => h x (by simp [hx]))]
    simp

/-- Rebuilding strings after splitting them into characters is the
identity. -/
theorem map_mk_map_data (L : List (List String)) :
    (L.map (List.map String.data)).map (List.map String.mk) = L := by
  rw [List.map_map]
  have h : (List.map String.mk ∘ List.map String.data) =
      (id : List String → List String) := by
    funext r
    show (r.map String.data).map String.mk = r
    rw [List.map_map]
    have h2 : (String.mk ∘ String.data) = (id : String → String) := by
      funext s
      rfl
    rw [h2, List.map_id]
  rw [h, List.map_id]

/-- Full CSV round-trip at the level of records: parsing the export of any
lead sequence gives back the header and every lead's fields, in order. -/
theorem parseCsv_exportCsv (leads : List Lead) :
    parseCsv (exportCsv leads) = csvHeader :: leads.map leadFields := by
  show (parseCsvGo false [] [] []
      (writeCsv ((csvHeader :: leads.map leadFields).map
        (List.map String.data)))).map (List.map String.mk) = _
  rw [parseCsvGo_writeCsv _ []]
  · rw [List.nil_append, map_mk_map_data]
  · intro r hr
    simp only [List.mem_map, List.mem_cons] at hr
    obtain ⟨r₀, hr₀, hre⟩ := hr
    subst hre
    rcases hr₀ with h | h
    · subst h
      simp [csvHeader]
    · obtain ⟨l, _, hl⟩ := h
      subst hl
      simp [leadFields]

/-! ## Helper lemmas about the rate-limit map and the contact handler -/

/-- Updating a key makes it look up to the new value. -/
theorem logLookup_logUpdate_self (log : RequestLog) (ip : String) (t : ℤ) :
    logLookup (logUpdate log ip t) ip = some t := by
  induction log with
  | nil => simp [logLookup, logUpdate]
  | cons kv rest ih =>
    obtain ⟨k, v⟩ := kv
    by_cases hk : k = ip
    · simp [logLookup, logUpdate, hk]
    · simp [logLookup, logUpdate, hk, ih]

/-- Updating one key leaves the others' lookups unchanged. -/
theorem logLookup_logUpdate_other (log : RequestLog) (ip ip' : String)
    (t : ℤ) (h : ip' ≠ ip) :
    logLookup (logUpdate log ip t) ip' = logLookup log ip' := by
  induction log with
  | nil =>
    show (if ip = ip' then some t else logLookup [] ip') = none
    rw [if_neg fun hh => h hh.symm]
    rfl
  | cons kv rest ih =>
    obtain ⟨k, v⟩ := kv
    by_cases hk : k = ip
    · subst hk
      simp only [logUpdate, if_pos rfl, logLookup]
      rw [if_neg fun hh => h hh.symm, if_neg fun hh => h hh.symm]
    · simp only [logUpdate, if_neg hk, logLookup]
      by_cases hk' : k = ip'
      · rw [if_pos hk', if_pos hk']
      · rw [if_neg hk', if_neg hk', ih]

/-- The request log after the rate-limit gate always carries the caller's
current time. -/
theorem contactAfterRate_requestLog (st : AppState) (ip : String) (now : ℤ)
    (body : ContactBody) (createdAt : String) :
    (contactAfterRate st ip now body createdAt).2.requestLog =
      logUpdate st.requestLog ip now := by
  simp only [contactAfterRate]
  split <;> rfl

/-- Past the rate-limit gate the answer is 400 or 200, never 429. -/
theorem contactAfterRate_not_429 (st : AppState) (ip : String) (now : ℤ)
    (body : ContactBody) (createdAt : String) :
    (contactAfterRate st ip now body createdAt).1 ≠
      ("too_many_requests", 429) := by
  simp only [contactAfterRate]
  split
  · show ("error", 400) ≠ (("too_many_requests", 429) : ContactResult)
    decide
  · show ("success", 200) ≠ (("too_many_requests", 429) : ContactResult)
    decide

/-! ## Concrete fixtures for witnesses and counterexamples -/

/-- A sample stored lead. -/
def sampleLead : Lead :=
  ⟨1, "Ali", "0300-1234567", "Interested in plots", "new",
    "2024-01-01 10:00:00"⟩

/-- A store holding one lead and an empty request log. -/
def sampleState : AppState := ⟨[sampleLead], 2, []⟩

/-- A fresh store with nothing in it. -/
def emptyState : AppState := ⟨[], 1, []⟩

/-- A fresh store whose request log has one client stamped at time 0. -/
def throttledState : AppState := ⟨[], 1, [("9.9.9.9", 0)]⟩

/-- A well-formed submission body. -/
def validBody : ContactBody := ⟨"Ahmed", "0301-2345678", "Please call me"⟩

/-- A submission body whose name is whitespace only. -/
def wsBody : ContactBody := ⟨"   ", "0301-2345678", "Please call me"⟩

/-! ## Claim theorems -/

/-- C1: every admin session-gated route (`/admin`, `/admin/mark/<id>`,
`/admin/delete/<id>`, `/admin/download`, `/admin/logout`) answers a request
without the admin-logged-in session flag with a redirect to `/admin/login`,
and no lead is created, modified, or deleted by that request. -/
theorem admin_routes_guarded (st : AppState) (leadId : Nat) :
    (admin false st).1 = .redirect "/admin/login" ∧
    (admin false st).2.leads = st.leads ∧
    (mark_contacted false st leadId).1 = .redirect "/admin/login" ∧
    (mark_contacted false st leadId).2.leads = st.leads ∧
    (delete_lead false st leadId).1 = .redirect "/admin/login" ∧
    (delete_lead false st leadId).2.leads = st.leads ∧
    (download_leads false st).1 = .redirect "/admin/login" ∧
    (download_leads false st).2.leads = st.leads ∧
    (admin_logout false st).1.1 = .redirect "/admin/login" ∧
    (admin_logout false st).2.leads = st.leads :=
  ⟨rfl, rfl, rfl, rfl, rfl, rfl, rfl, rfl, rfl, rfl⟩

/-- C2: `/admin/backup` with a wrong `key` answers 403 "Unauthorized" and the
dispatcher is never invoked; with the right key it answers "Backup
triggered", and the response is the same whatever the outcome of the
detached dispatch (provider failure, transport error), which itself always
returns normally. -/
theorem admin_backup_spec (key backupKey : String) (leads : List Lead)
    (attempt attempt' : SendAttempt) :
    (key ≠ backupKey →
      admin_backup_with_dispatch key backupKey leads attempt =
        ({ body := "Unauthorized", code := 403, dispatchStarted := false },
          none)) ∧
    (key = backupKey →
      (admin_backup_with_dispatch key backupKey leads attempt).1 =
        { body := "Backup triggered", code := 200, dispatchStarted := true } ∧
      (admin_backup_with_dispatch key backupKey leads attempt).1 =
        (admin_backup_with_dispatch key backupKey leads attempt').1 ∧
      (admin_backup_with_dispatch key backupKey leads attempt).2 =
        some (send_db_backup_email leads attempt)) := by
  constructor
  · intro h
    simp [admin_backup_with_dispatch, admin_backup, h]
  · intro h
    subst h
    refine ⟨?_, ?_, ?_⟩ <;> simp [admin_backup_with_dispatch, admin_backup]

/-- C2 witness at concrete inputs: a wrong key is refused with no dispatch,
the right key is acknowledged even when the provider send raises. -/
theorem admin_backup_spec_witness :
    admin_backup_with_dispatch "wrong" "secret" [] (.providerStatus 500) =
      ({ body := "Unauthorized", code := 403, dispatchStarted := false },
        none) ∧
    (admin_backup_with_dispatch "secret" "secret" [sampleLead]
      (.transportError "timeout")).1 =
      { body := "Backup triggered", code := 200, dispatchStarted := true } :=
  ⟨(admin_backup_spec "wrong" "secret" [] (.providerStatus 500)
      (.providerStatus 500)).1 (by decide),
    ((admin_backup_spec "secret" "secret" [sampleLead]
      (.transportError "timeout") (.providerStatus 202)).2 rfl).1⟩

/-- C3 counterexample: with the stored timestamp 0 and current time 5 the
elapsed time equals the cooldown window exactly, yet the submission is
accepted with 200, not rejected with 429 — the claim fails as stated. -/
theorem contact_boundary_counterexample :
    logLookup throttledState.requestLog "9.9.9.9" = some 0 ∧
    (5 : ℤ) - 0 = 5 ∧
    (contact throttledState "9.9.9.9" 5 validBody "t").1 = ("success", 200) :=
  ⟨by decide, by norm_num, by decide⟩

/-- C3 amended: for a client with a stored timestamp, the submission is
rejected with 429 exactly when the elapsed time is strictly below the
5-second window; elapsed time exactly equal to the window is allowed
through. -/
theorem contact_rate_limit_strict (st : AppState) (ip : String) (now t : ℤ)
    (body : ContactBody) (createdAt : String)
    (h : logLookup st.requestLog ip = some t) :
    ((contact st ip now body createdAt).1 = ("too_many_requests", 429) ↔
      now - t < 5) := by
  unfold contact
  rw [h]
  by_cases hlt : now - t < 5
  · simp [hlt]
  · simp only [if_neg hlt, iff_false_intro hlt]
    simp [contactAfterRate_not_429 st ip now body createdAt]

/-- C3 witness: the amended theorem applied at the boundary input of the
counterexample, where the elapsed time is exactly 5. -/
theorem contact_rate_limit_strict_witness :
    ¬((contact throttledState "9.9.9.9" 5 validBody "t").1 =
      ("too_many_requests", 429)) := by
  rw [contact_rate_limit_strict throttledState "9.9.9.9" 5 0 validBody "t"
    (by decide)]
  norm_num

/-- C4 counterexample: a submission rejected by validation (400) still
updates the stored timestamp: with an empty map, a whitespace-only name is
rejected, yet `REQUEST_LOG` gains the client's entry at the current time —
so the map does not hold the time of the last accepted submission. -/
theorem request_log_update_counterexample :
    (contact emptyState "7.7.7.7" 7 wsBody "t").1 = ("error", 400) ∧
    (contact emptyState "7.7.7.7" 7 wsBody "t").2.requestLog =
      [("7.7.7.7", 7)] :=
  ⟨by decide, by decide⟩

/-- C4 amended: the stored timestamp is set to the current time exactly when
the submission passes the rate-limit gate — whether it is then accepted or
rejected by validation — and the map is unchanged on a 429; other keys'
entries are never touched. -/
theorem request_log_update (st : AppState) (ip : String) (now : ℤ)
    (body : ContactBody) (createdAt : String) :
    ((contact st ip now body createdAt).1 = ("too_many_requests", 429) →
      (contact st ip now body createdAt).2.requestLog = st.requestLog) ∧
    ((contact st ip now body createdAt).1 ≠ ("too_many_requests", 429) →
      logLookup (contact st ip now body createdAt).2.requestLog ip =
        some now ∧
      ∀ ip', ip' ≠ ip →
        logLookup (contact st ip now body createdAt).2.requestLog ip' =
          logLookup st.requestLog ip') := by
  unfold contact
  cases hc : logLookup st.requestLog ip with
  | none =>
    refine ⟨fun h => absurd h (contactAfterRate_not_429 _ _ _ _ _), fun _ => ?_⟩
    rw [contactAfterRate_requestLog]
    exact ⟨logLookup_logUpdate_self _ _ _,
      fun ip' h' => logLookup_logUpdate_other _ _ _ _ h'⟩
  | some t =>
    dsimp only
    by_cases hlt : now - t < 5
    · rw [if_pos hlt]
      exact ⟨fun _ => rfl, fun h => absurd rfl h⟩
    · rw [if_neg hlt]
      refine ⟨fun h => absurd h (contactAfterRate_not_429 _ _ _ _ _),
        fun _ => ?_⟩
      rw [contactAfterRate_requestLog]
      exact ⟨logLookup_logUpdate_self _ _ _,
        fun ip' h' => logLookup_logUpdate_other _ _ _ _ h'⟩

/-- C4 witness: on the rate-limited path the map really is left unchanged,
and on a non-rate-limited 400 the entry really is stamped with now. -/
theorem request_log_update_witness :
    (contact throttledState "9.9.9.9" 1 validBody "t").2.requestLog =
      throttledState.requestLog ∧
    logLookup (contact emptyState "7.7.7.7" 7 wsBody "t").2.requestLog
      "7.7.7.7" = some 7 :=
  ⟨(request_log_update throttledState "9.9.9.9" 1 validBody "t").1 (by decide),
    ((request_log_update emptyState "7.7.7.7" 7 wsBody "t").2
      (by decide)).1⟩

/-- C5: a POST whose stripped fields are non-empty and within the length
bounds (name ≤ 100, phone ≤ 20, message ≤ 1000), from a client that is not
rate-limited, is answered with success 200 and appends exactly one new lead
carrying those fields and status "new". -/
theorem contact_valid_persists (st : AppState) (ip : String) (now : ℤ)
    (body : ContactBody) (createdAt : String)
    (hrl : ∀ t, logLookup st.requestLog ip = some t → ¬(now - t < 5))
    (h1 : pyStrip body.name ≠ "") (h2 : pyStrip body.phone ≠ "")
    (h3 : pyStrip body.message ≠ "")
    (h4 : (pyStrip body.name).length ≤ 100)
    (h5 : (pyStrip body.phone).length ≤ 20)
    (h6 : (pyStrip body.message).length ≤ 1000) :
    (contact st ip now body createdAt).1 = ("success", 200) ∧
    (contact st ip now body createdAt).2.leads =
      st.leads ++ [⟨st.nextId, pyStrip body.name, pyStrip body.phone,
        pyStrip body.message, "new", createdAt⟩] := by
  have hpass : contact st ip now body createdAt =
      contactAfterRate st ip now body createdAt := by
    unfold contact
    cases hc : logLookup st.requestLog ip with
    | none => rfl
    | some t =>
      dsimp only
      rw [if_neg (hrl t hc)]
  have hcond : ¬(pyStrip body.name = "" ∨ pyStrip body.phone = "" ∨
      pyStrip body.message = "" ∨ (pyStrip body.name).length > 100 ∨
      (pyStrip body.phone).length > 20 ∨
      (pyStrip body.message).length > 1000) := by
    simp only [not_or]
    exact ⟨h1, h2, h3, Nat.not_lt.mpr h4, Nat.not_lt.mpr h5,
      Nat.not_lt.mpr h6⟩
  rw [hpass]
  constructor
  · simp only [contactAfterRate]
    rw [if_neg hcond]
  · simp only [contactAfterRate]
    rw [if_neg hcond]

/-- C5 witness: a fresh client with a well-formed body gets 200 and the
store gains exactly that lead. -/
theorem contact_valid_persists_witness :
    (contact emptyState "1.2.3.4" 0 validBody "t").1 = ("success", 200) ∧
    (contact emptyState "1.2.3.4" 0 validBody "t").2.leads =
      emptyState.leads ++ [⟨emptyState.nextId, pyStrip validBody.name,
        pyStrip validBody.phone, pyStrip validBody.message, "new", "t"⟩] :=
  contact_valid_persists emptyState "1.2.3.4" 0 validBody "t"
    (fun t ht => nomatch ht) (by decide) (by decide) (by decide)
    (by decide) (by decide) (by decide)

/-- C6 counterexample: an invalid submission (whitespace-only name) from a
rate-limited client is answered with 429, not with the claimed 400. -/
theorem contact_invalid_counterexample :
    pyStrip wsBody.name = "" ∧
    (contact throttledState "9.9.9.9" 1 wsBody "t").1 =
      ("too_many_requests", 429) :=
  ⟨by decide, by decide⟩

/-- C6 amended: a submission that is not rate-limited and misses a required
field (empty after stripping) or exceeds a length bound is answered with a
400 error and the lead store is unchanged. -/
theorem contact_invalid_rejected (st : AppState) (ip : String) (now : ℤ)
    (body : ContactBody) (createdAt : String)
    (hrl : ∀ t, logLookup st.requestLog ip = some t → ¬(now - t < 5))
    (hbad : pyStrip body.name = "" ∨ pyStrip body.phone = "" ∨
      pyStrip body.message = "" ∨ (pyStrip body.name).length > 100 ∨
      (pyStrip body.phone).length > 20 ∨
      (pyStrip body.message).length > 1000) :
    (contact st ip now body createdAt).1 = ("error", 400) ∧
    (contact st ip now body createdAt).2.leads = st.leads := by
  have hpass : contact st ip now body createdAt =
      contactAfterRate st ip now body createdAt := by
    unfold contact
    cases hc : logLookup st.requestLog ip with
    | none => rfl
    | some t =>
      dsimp only
      rw [if_neg (hrl t hc)]
  rw [hpass]
  constructor
  · simp only [contactAfterRate]
    rw [if_pos hbad]
  · simp only [contactAfterRate]
    rw [if_pos hbad]

/-- C6 witness: a fresh client with a whitespace-only name gets 400 and the
store stays empty. -/
theorem contact_invalid_rejected_witness :
    (contact emptyState "1.2.3.4" 0 wsBody "t").1 = ("error", 400) ∧
    (contact emptyState "1.2.3.4" 0 wsBody "t").2.leads =
      emptyState.leads :=
  contact_invalid_rejected emptyState "1.2.3.4" 0 wsBody "t"
    (fun t ht => nomatch ht) (Or.inl (by decide))

/-- C7: exporting any sequence of leads to CSV and parsing the text back
with standard CSV rules yields exactly one data row per lead after the
header, each row being that lead's fields in the order given — commas,
quotes and newlines in any field included, since the leads are arbitrary. -/
theorem csv_export_roundtrip (leads : List Lead) :
    parseCsv (exportCsv leads) = csvHeader :: leads.map leadFields ∧
    (parseCsv (exportCsv leads)).length = leads.length + 1 := by
  refine ⟨parseCsv_exportCsv leads, ?_⟩
  rw [parseCsv_exportCsv leads]
  simp

/-- C8: on an empty lead store both export consumers short-circuit with the
no-data outcome: the authenticated download answers the plain-text message
instead of a CSV attachment, and the backup dispatcher returns without
sending any email. -/
theorem empty_export_short_circuit (st : AppState) (attempt : SendAttempt)
    (h : st.leads = []) :
    (download_leads true st).1 = .text "No data available" ∧
    (send_db_backup_email st.leads attempt).emailSent = false ∧
    (send_db_backup_email st.leads attempt).log =
      ["No leads found. Backup skipped."] := by
  refine ⟨?_, ?_, ?_⟩
  · simp [download_leads, h, sortByCreatedDesc]
  · simp [send_db_backup_email, sendBackupBody, h, sortByCreatedDesc]
  · simp [send_db_backup_email, sendBackupBody, h, sortByCreatedDesc]

/-- C8 witness: the empty store concretely produces the no-data download
response and a skipped backup. -/
theorem empty_export_short_circuit_witness :
    (download_leads true emptyState).1 = .text "No data available" ∧
    (send_db_backup_email emptyState.leads (.providerStatus 202)).emailSent =
      false ∧
    (send_db_backup_email emptyState.leads (.providerStatus 202)).log =
      ["No leads found. Backup skipped."] :=
  empty_export_short_circuit emptyState (.providerStatus 202) rfl

/-- C9: an authenticated mark-contacted or delete on a lead id absent from
the store completes without error, answers the redirect to `/admin`, and
leaves the store unchanged. -/
theorem missing_id_noop (st : AppState) (leadId : Nat)
    (h : ∀ l ∈ st.leads, l.id ≠ leadId) :
    (mark_contacted true st leadId).1 = .redirect "/admin" ∧
    (mark_contacted true st leadId).2.leads = st.leads ∧
    (delete_lead true st leadId).1 = .redirect "/admin" ∧
    (delete_lead true st leadId).2.leads = st.leads := by
  refine ⟨rfl, ?_, rfl, ?_⟩
  · show List.map _ st.leads = st.leads
    conv_rhs => rw [← List.map_id st.leads]
    refine List.map_congr_left fun l hl => ?_
    rw [if_neg (h l hl)]
    rfl
  · show List.filter _ st.leads = st.leads
    rw [List.filter_eq_self]
    intro a ha
    simpa using h a ha

/-- C9 witness: marking or deleting id 2 in a store holding only id 1. -/
theorem missing_id_noop_witness :
    (mark_contacted true sampleState 2).1 = .redirect "/admin" ∧
    (mark_contacted true sampleState 2).2.leads = sampleState.leads ∧
    (delete_lead true sampleState 2).1 = .redirect "/admin" ∧
    (delete_lead true sampleState 2).2.leads = sampleState.leads :=
  missing_id_noop sampleState 2 (by decide)

/-- C10: past the rate limiter, the handler works on the stripped fields: a
name of only whitespace is treated as missing and rejected 400, acceptance
is decided exactly by the stripped values and their length bounds, and any
lead the request appends carries the stripped fields, which have no leading
or trailing whitespace. -/
theorem contact_strips_fields (st : AppState) (ip : String) (now : ℤ)
    (body : ContactBody) (createdAt : String)
    (hrl : ∀ t, logLookup st.requestLog ip = some t → ¬(now - t < 5)) :
    ((∀ c ∈ body.name.data, c.isWhitespace) →
      (contact st ip now body createdAt).1 = ("error", 400)) ∧
    ((contact st ip now body createdAt).1 = ("success", 200) ↔
      (pyStrip body.name ≠ "" ∧ pyStrip body.phone ≠ "" ∧
        pyStrip body.message ≠ "" ∧ (pyStrip body.name).length ≤ 100 ∧
        (pyStrip body.phone).length ≤ 20 ∧
        (pyStrip body.message).length ≤ 1000)) ∧
    ((contact st ip now body createdAt).2.leads = st.leads ∨
      ((contact st ip now body createdAt).2.leads =
        st.leads ++ [⟨st.nextId, pyStrip body.name, pyStrip body.phone,
          pyStrip body.message, "new", createdAt⟩] ∧
        noEdgeWhitespace (pyStrip body.name) ∧
        noEdgeWhitespace (pyStrip body.phone) ∧
        noEdgeWhitespace (pyStrip body.message))) := by
  have hpass : contact st ip now body createdAt =
      contactAfterRate st ip now body createdAt := by
    unfold contact
    cases hc : logLookup st.requestLog ip with
    | none => rfl
    | some t =>
      dsimp only
      rw [if_neg (hrl t hc)]
  rw [hpass]
  by_cases hbad : pyStrip body.name = "" ∨ pyStrip body.phone = "" ∨
      pyStrip body.message = "" ∨ (pyStrip body.name).length > 100 ∨
      (pyStrip body.phone).length > 20 ∨ (pyStrip body.message).length > 1000
  · refine ⟨fun _ => ?_, ?_, Or.inl ?_⟩
    · simp only [contactAfterRate]
      rw [if_pos hbad]
    · constructor
      · intro hs
        simp only [contactAfterRate] at hs
        rw [if_pos hbad] at hs
        have hnum : (400 : Nat) = 200 := congrArg Prod.snd hs
        exact absurd hnum (by decide)
      · intro hgood
        obtain ⟨h1, h2, h3, h4, h5, h6⟩ := hgood
        rcases hbad with hb | hb | hb | hb | hb | hb
        · exact absurd hb h1
        · exact absurd hb h2
        · exact absurd hb h3
        · exact absurd h4 (Nat.not_le.mpr hb)
        · exact absurd h5 (Nat.not_le.mpr hb)
        · exact absurd h6 (Nat.not_le.mpr hb)
    · simp only [contactAfterRate]
      rw [if_pos hbad]
  · have hgood : pyStrip body.name ≠ "" ∧ pyStrip body.phone ≠ "" ∧
        pyStrip body.message ≠ "" ∧ (pyStrip body.name).length ≤ 100 ∧
        (pyStrip body.phone).length ≤ 20 ∧
        (pyStrip body.message).length ≤ 1000 := by
      simp only [not_or] at hbad
      obtain ⟨h1, h2, h3, h4, h5, h6⟩ := hbad
      exact ⟨h1, h2, h3, Nat.not_lt.mp h4, Nat.not_lt.mp h5, Nat.not_lt.mp h6⟩
    refine ⟨fun hws => ?_, ?_, Or.inr ⟨?_, noEdgeWhitespace_pyStrip _,
      noEdgeWhitespace_pyStrip _, noEdgeWhitespace_pyStrip _⟩⟩
    · exact absurd (pyStrip_eq_empty_of_all_whitespace body.name hws) hgood.1
    · refine iff_of_true ?_ hgood
      simp only [contactAfterRate]
      rw [if_neg hbad]
    · simp only [contactAfterRate]
      rw [if_neg hbad]

/-- C10 witness: a whitespace-only name from a fresh client really is
rejected with 400, through the main theorem instantiated there. -/
theorem contact_strips_fields_witness :
    (contact emptyState "1.2.3.4" 0 wsBody "t").1 = ("error", 400) :=
  (contact_strips_fields emptyState "1.2.3.4" 0 wsBody "t"
    (fun t ht => nomatch ht)).1 (by decide)

end AlMeezan
